import Mathlib

/-!
# Verification of the rivers v2 core (context tree + stream)

Shallow embedding of `src/stream/stream.go` and `src/context/context.go`
of drborges/riversv2, together with theorems settling the behavioural
claims about them.

Conventions:
* Go channels are modelled as a bounded FIFO queue plus a `closed` flag.
  A receive on a non-empty channel delivers the head even when the
  channel is closed (Go semantics); a receive on an empty open channel
  blocks; a receive on an empty closed channel reports closure.
  Closing an already-closed channel and sending on a closed channel are
  Go run-time panics, modelled explicitly (`none` / `panicked`).
* `stream.go` binds its reader/writer to a `ctxtree.Context`.  The
  `ctxtree` package is not part of this repository's sources (only its
  callers are), so the small portion of its state the stream consults is
  modelled from the spec (see `CtxM`).
* The `context` package (the repository's context tree) is embedded as a
  pool of nodes (`CtxTree`) with the standard-library cancellation
  semantics made explicit: a node's `Done` channel is closed as soon as
  its own cancel function has run or any of its std-context ancestors
  has been cancelled.
-/

namespace Rivers

/-- Go `error` values that the stream layer can surface.  `GoErr` stands
for any non-nil error; distinct constructors let concrete tests tell
causes apart. -/
inductive GoErr : Type where
  | canceled : GoErr
  | deadlineExceeded : GoErr
  | custom : Nat → GoErr
  deriving DecidableEq, Repr

/-- A Go channel `chan T` with capacity `cap`: a FIFO buffer (head is the
next element delivered) and a closed flag. -/
structure Chan (α : Type) where
  buffer : List α
  cap : Nat
  closed : Bool
  deriving DecidableEq, Repr

/-- `make(chan T, n)` — fresh open channel with empty buffer. -/
def Chan.new (α : Type) (n : Nat) : Chan α :=
  { buffer := [], cap := n, closed := false }

/-- Result of a single Go receive `<-ch`. -/
inductive RecvResult (α : Type) where
  /-- An element was delivered; the channel's buffer lost its head. -/
  | item : α → Chan α → RecvResult α
  /-- The channel is closed and drained: receive returns the zero value
  with `ok = false`. -/
  | closedEmpty : RecvResult α
  /-- The channel is open and empty: the receiver blocks. -/
  | blocked : RecvResult α
  deriving DecidableEq, Repr

/-- Go receive on a channel.  Buffered items are delivered in FIFO order
whether or not the channel is closed; nothing about this operation
consults any context. -/
def recv (ch : Chan α) : RecvResult α :=
  match ch.buffer with
  | d :: rest => .item d { ch with buffer := rest }
  | [] => if ch.closed then .closedEmpty else .blocked

/-- `n` successive receives (a drain loop), collecting the delivered
items; the loop stops early when the receive blocks or the channel is
reported closed. -/
def recvs (ch : Chan α) : Nat → List α
  | 0 => []
  | n + 1 =>
    match recv ch with
    | .item d ch' => d :: recvs ch' n
    | _ => []

/-- Go `close(ch)`: `none` models the run-time panic on closing an
already-closed channel. -/
def closeChan (ch : Chan α) : Option (Chan α) :=
  if ch.closed then none else some { ch with closed := true }

/-- Modelled from the spec: the `ctxtree.Context` state observed by
`stream.go` (the `ctxtree` package itself is not under the repository
sources).  Per spec §4.1 a node carries a one-shot `done` signal, a
recorded `cause` (`none` = graceful), and a child set gating `Close`;
only the number of still-open children matters to the close attempt. -/
structure CtxM where
  done : Bool
  cause : Option GoErr
  openChildren : Nat
  deriving DecidableEq, Repr

/-- Modelled from the spec: `Err(node)` — "the recorded cause, or none if
closed gracefully or still open" (§4.1). -/
def ctxErr (ctx : CtxM) : Option GoErr :=
  if ctx.done then ctx.cause else none

/-- Modelled from the spec: `Close(node, cause)` — no-op if the node is
already closed or some child is still open; otherwise marks the node done
and records the cause (§4.1).  This matches the gating loop of
`context.Close` in `src/context/context.go`. -/
def ctxClose (ctx : CtxM) (cause : Option GoErr) : CtxM :=
  if ctx.done then ctx
  else if ctx.openChildren ≠ 0 then ctx
  else { ctx with done := true, cause := cause }

/-- Outcome of `writer.write` for a single item
(`src/stream/stream.go:100-112`). -/
inductive WriteStep (α : Type) where
  /-- The call returned: `none` is Go's `nil` error (either the item was
  enqueued, or the context was done with a `nil` recorded cause); the
  channel state after the call is carried alongside. -/
  | ret : Option GoErr → Chan α → WriteStep α
  /-- Both `select` cases are unready: the writer suspends on the full
  buffer. -/
  | blocked : WriteStep α
  /-- Send on a closed channel: Go run-time panic. -/
  | panicked : WriteStep α
  deriving DecidableEq, Repr

/-- `writer.write(data)`: the outer `select` returns `ctx.Err()` when the
context's done channel is closed, otherwise the inner `select` attempts
the send, aborting with `ctx.Err()` if the done signal fires first.
`ctx` is the context state observed during this call. -/
def write (ctx : CtxM) (ch : Chan α) (data : α) : WriteStep α :=
  if ctx.done then .ret (ctxErr ctx) ch
  else if ch.closed then .panicked
  else if ch.buffer.length < ch.cap then
    .ret none { ch with buffer := ch.buffer ++ [data] }
  else .blocked

/-- Outcome of `writer.Write(items...)`. -/
inductive WriteRes (α : Type) where
  /-- Returned `nil`; carries the channel state at return. -/
  | ok : Chan α → WriteRes α
  /-- Returned a non-nil error; carries the channel state at return. -/
  | err : GoErr → Chan α → WriteRes α
  /-- Suspended on a full buffer while emitting some item. -/
  | blocked : WriteRes α
  /-- Send on a closed channel panicked. -/
  | panicked : WriteRes α
  deriving DecidableEq, Repr

/-- `writer.Write(items...)` (`src/stream/stream.go:114-122`): emit the
items in order, returning the first non-nil error from `write`.  Since
the bound context can be closed concurrently, `env j` is the context
state the `j`-th `write` call of this invocation observes (`i` is the
index of the first pending item). -/
def WriteAll (env : Nat → CtxM) : Nat → Chan α → List α → WriteRes α
  | _, ch, [] => .ok ch
  | i, ch, d :: rest =>
    match write (env i) ch d with
    | .ret none ch' => WriteAll env (i + 1) ch' rest
    | .ret (some e) ch' => .err e ch'
    | .blocked => .blocked
    | .panicked => .panicked

/-- `writer.Close(err)` (`src/stream/stream.go:124-127`): runs
`ctx.Close(err)` and then — via `defer`, hence unconditionally — Go's
`close` on the buffer channel.  The second component is `none` exactly
when that `close` panics. -/
def writerClose (ctx : CtxM) (ch : Chan α) (cause : Option GoErr) :
    CtxM × Option (Chan α) :=
  (ctxClose ctx cause, closeChan ch)

/-- `New(ctx)` (`src/stream/stream.go:69-72`): the shared buffer channel
of a fresh stream, `make(chan T, ctx.Config().BufferSize)`. -/
def newStreamChan (α : Type) (bufferSize : Nat) : Chan α :=
  Chan.new α bufferSize

/-! ## The `context` package (`src/context/context.go`) -/

/-- `Config` (`src/context/context.go`): timeout in nanoseconds and the
buffer size used by workers bound to the context. -/
structure Config where
  timeout : Nat
  bufferSize : Nat
  deriving DecidableEq, Repr

/-- `DefaultConfig`: `Timeout: 5 * time.Second, BufferSize: 1000`. -/
def DefaultConfig : Config :=
  { timeout := 5000000000, bufferSize := 1000 }

/-- One node of the context pool.  `ancestors` is the chain of
std-context ancestors (nearest first): `goContext.WithCancel(parent)`
makes the node's `Done` fire as soon as its own cancel function has run
or any node in `ancestors` is cancelled.  `parent` is the tree parent to
which the node's cancel function propagates a `Close` attempt (`none`
for nodes built by `FromStdContext`, whose cancel is the plain std
cancel). -/
structure Node where
  ancestors : List Nat
  parent : Option Nat
  cancelled : Bool
  children : List Nat
  config : Config
  deriving DecidableEq, Repr

/-- A node representing a plain standard context (e.g.
`goContext.Background()` or an externally supplied std context). -/
def stdNode : Node :=
  { ancestors := [], parent := none, cancelled := false,
    children := [], config := DefaultConfig }

/-- The pool of context nodes; a context value is an index into it. -/
structure CtxTree where
  nodes : List Node
  deriving DecidableEq, Repr

/-- Node lookup (out-of-range indices read as an inert std node). -/
def CtxTree.get (t : CtxTree) (i : Nat) : Node :=
  t.nodes.getD i stdNode

/-- Run the node's underlying `cancel` function's direct effect: mark
the node's own std context cancelled. -/
def CtxTree.setCancelled (t : CtxTree) (i : Nat) : CtxTree :=
  { nodes := t.nodes.set i { t.get i with cancelled := true } }

/-- Whether the node's `Done()` channel is closed: its own cancel ran,
or some std-context ancestor was cancelled (standard-library `Done`
propagation is top-down through `WithCancel` derivation). -/
def CtxTree.stdDone (t : CtxTree) (i : Nat) : Bool :=
  (t.get i).cancelled || (t.get i).ancestors.any fun j => (t.get j).cancelled

/-- The gating loop of `context.Close` (`src/context/context.go:75-85`):
the close attempt proceeds only if every child's `Done()` is closed. -/
def CtxTree.childrenDone (t : CtxTree) (i : Nat) : Bool :=
  (t.get i).children.all fun c => t.stdDone c

/-- `context.Close` (`src/context/context.go:75-85`): if some child is
not done, return without effect; otherwise run `ctx.cancel()`, which for
a child built by `NewChild` is `cancelWithPropagation` — cancel the own
std context, then attempt to close the tree parent.  The recursion walks
the parent chain; `fuel` bounds it and `i + 1` suffices on well-formed
pools, where a parent's index is smaller than its child's. -/
def CtxTree.closeAux : Nat → CtxTree → Nat → CtxTree
  | 0, t, _ => t
  | fuel + 1, t, i =>
    if t.childrenDone i then
      let t' := t.setCancelled i
      match (t.get i).parent with
      | none => t'
      | some p => CtxTree.closeAux fuel t' p
    else t

/-- `context.Close` entry point. -/
def CtxTree.close (t : CtxTree) (i : Nat) : CtxTree :=
  CtxTree.closeAux (i + 1) t i

/-- `FromStdContext` (`src/context/context.go:58-62`): derive the node's
std context from `std` via `goContext.WithCancel` (hence `std` heads the
ancestor chain), plain cancel (no tree parent), no children, and
`DefaultConfig`.  Returns the grown pool and the new node's index.  No
timer and no use of any timeout appears in the source. -/
def CtxTree.fromStdContext (t : CtxTree) (std : Nat) : CtxTree × Nat :=
  let node : Node :=
    { ancestors := std :: (t.get std).ancestors, parent := none,
      cancelled := false, children := [], config := DefaultConfig }
  ({ nodes := t.nodes ++ [node] }, t.nodes.length)

/-- `context.NewChild` (`src/context/context.go:87-96`): the child's std
context is derived from the parent's (`WithCancel(parent.Context)`), its
cancel function is `cancelWithPropagation` (cancel, then `parent.Close()`
— recorded here as `parent := some p`), it inherits `parent.config`, and
it is appended to `parent.children`.  Returns the grown pool and the
child's index. -/
def CtxTree.newChild (t : CtxTree) (p : Nat) : CtxTree × Nat :=
  let id := t.nodes.length
  let parentNode := t.get p
  let child : Node :=
    { ancestors := p :: parentNode.ancestors, parent := some p,
      cancelled := false, children := [], config := parentNode.config }
  ({ nodes :=
      (t.nodes.set p { parentNode with children := parentNode.children ++ [id] })
        ++ [child] },
    id)

/-- Well-formed pool: tree parents precede their children, so the close
recursion's parent chain strictly descends. -/
def CtxTree.WF (t : CtxTree) : Prop :=
  ∀ i p, (t.get i).parent = some p → p < i

/-- Replace every node's configured timeout by `v` (used to state that
the close semantics never consult the timeout). -/
def CtxTree.setTimeouts (t : CtxTree) (v : Nat) : CtxTree :=
  { nodes := t.nodes.map fun n => { n with config := { n.config with timeout := v } } }

/-! ## Lemmas about the stream operations -/

/-- Emitting items through an open context with enough free capacity
walks `Write`'s loop across the first `i` items, enqueueing them in
order. -/
theorem writeAll_enqueue_front {α : Type} (env : Nat → CtxM) :
    ∀ (i k : Nat) (ch : Chan α) (items : List α),
      i ≤ items.length →
      (∀ j, j < i → (env (k + j)).done = false) →
      ch.closed = false →
      ch.buffer.length + i ≤ ch.cap →
      WriteAll env k ch items =
        WriteAll env (k + i) { ch with buffer := ch.buffer ++ items.take i }
          (items.drop i) := by
  intro i
  induction i with
  | zero => intro k ch items _ _ _ _; simp
  | succ i ih =>
    intro k ch items hlen hopen hcl hcap
    match items with
    | [] => simp at hlen
    | d :: rest =>
      have hdone : (env k).done = false := by
        have := hopen 0 (Nat.succ_pos i); simpa using this
      have hspace : ch.buffer.length < ch.cap := by omega
      have hstep :
          write (env k) ch d =
            .ret none { ch with buffer := ch.buffer ++ [d] } := by
        simp [write, hdone, hcl, hspace]
      have hrec :
          WriteAll env k ch (d :: rest) =
            WriteAll env (k + 1) { ch with buffer := ch.buffer ++ [d] } rest := by
        simp [WriteAll, hstep]
      rw [hrec,
        ih (k + 1) { ch with buffer := ch.buffer ++ [d] } rest
          (by simpa using hlen)
          (fun j hj => by
            have := hopen (j + 1) (by omega)
            simpa [Nat.add_assoc, Nat.add_comm 1 j] using this)
          (by simpa using hcl)
          (by simp; omega)]
      simp [Nat.add_assoc, Nat.add_comm 1 i]

/-- Writing a whole batch through an always-open context with capacity
for the batch succeeds, returning `nil` and leaving exactly the batch
appended to the buffer. -/
theorem writeAll_open {α : Type} (env : Nat → CtxM) (k : Nat) (ch : Chan α)
    (items : List α)
    (hopen : ∀ j, j < items.length → (env (k + j)).done = false)
    (hcl : ch.closed = false)
    (hcap : ch.buffer.length + items.length ≤ ch.cap) :
    WriteAll env k ch items = .ok { ch with buffer := ch.buffer ++ items } := by
  rw [writeAll_enqueue_front env items.length k ch items le_rfl hopen hcl hcap]
  simp [WriteAll]

/-- A drain loop of at least `l.length` receives on an open channel
holding `l` delivers exactly `l`, then blocks. -/
theorem recvs_open {α : Type} :
    ∀ (l : List α) (n c : Nat), l.length ≤ n →
      recvs { buffer := l, cap := c, closed := false } n = l := by
  intro l
  induction l with
  | nil =>
    intro n c _
    match n with
    | 0 => rfl
    | n + 1 => simp [recvs, recv]
  | cons d rest ih =>
    intro n c hn
    match n with
    | 0 => simp at hn
    | n + 1 =>
      simp only [recvs, recv]
      exact congrArg (d :: ·) (ih n c (by simpa using hn))

/-! ## Claims about the stream (C1, C3, C4, C5, C8, C10) -/

/-- C1: for every sequence of `N` items written via `Writer.Write` to a
stream whose buffer capacity is at least `N`, with the bound context
never done during the call (no close), the write returns `nil` having
enqueued exactly the items, and the matching reader's drain loop yields
exactly those `N` items in the order written (after which it blocks). -/
theorem C1_fifo_exact_delivery {α : Type} (env : Nat → CtxM) (items : List α)
    (bufcap n : Nat)
    (hopen : ∀ j, (env j).done = false)
    (hcap : items.length ≤ bufcap)
    (hn : items.length ≤ n) :
    WriteAll env 0 (newStreamChan α bufcap) items =
      .ok { buffer := items, cap := bufcap, closed := false } ∧
    recvs { buffer := items, cap := bufcap, closed := false : Chan α } n = items := by
  constructor
  · have h := writeAll_open env 0 (newStreamChan α bufcap) items
      (fun j _ => hopen (0 + j)) rfl (by simpa [newStreamChan, Chan.new] using hcap)
    simpa [newStreamChan, Chan.new] using h
  · exact recvs_open items n bufcap hn

/-- Witness for C1: three items through a capacity-3 stream bound to an
always-open context come out as written. -/
theorem C1_witness :
    WriteAll (fun _ => { done := false, cause := none, openChildren := 0 }) 0
        (newStreamChan Nat 3) [10, 20, 30] =
      .ok { buffer := [10, 20, 30], cap := 3, closed := false } ∧
    recvs { buffer := [10, 20, 30], cap := 3, closed := false : Chan Nat } 3 =
      [10, 20, 30] :=
  C1_fifo_exact_delivery (fun _ => { done := false, cause := none, openChildren := 0 })
    [10, 20, 30] 3 3 (fun _ => rfl) (by decide) (by decide)

/-- C3: `Writer.Write` processes items strictly in order; when the bound
context is first observed done at item `i` with recorded cause `e`, the
call returns `e`, the items before `i` stay enqueued in order (no
rollback), and neither item `i` nor any later item is enqueued.  With
`i = 0` this is a `Write` issued entirely after the context closed: it
fails and enqueues nothing. -/
theorem C3_fail_fast_no_rollback {α : Type} (env : Nat → CtxM) (ch : Chan α)
    (items : List α) (i : Nat) (e : GoErr)
    (hbefore : ∀ j, j < i → (env j).done = false)
    (hat : (env i).done = true)
    (hcause : (env i).cause = some e)
    (hcl : ch.closed = false)
    (hcap : ch.buffer.length + i ≤ ch.cap)
    (hlen : i < items.length) :
    WriteAll env 0 ch items = .err e { ch with buffer := ch.buffer ++ items.take i } := by
  rw [writeAll_enqueue_front env i 0 ch items (Nat.le_of_lt hlen)
      (fun j hj => by simpa using hbefore j hj) hcl hcap]
  rw [List.drop_eq_getElem_cons hlen]
  simp [WriteAll, write, Nat.zero_add, hat, ctxErr, hcause]

/-- Witness for C3: the context closes (cause `canceled`) after two of
three items; `Write` returns the cause with exactly the first two items
enqueued. -/
theorem C3_witness :
    WriteAll
        (fun j =>
          if j < 2 then { done := false, cause := none, openChildren := 0 }
          else { done := true, cause := some GoErr.canceled, openChildren := 0 })
        0 (newStreamChan Nat 5) [10, 20, 30] =
      .err GoErr.canceled { buffer := [10, 20], cap := 5, closed := false } := by
  have h := C3_fail_fast_no_rollback
    (fun j =>
      if j < 2 then { done := false, cause := none, openChildren := 0 }
      else { done := true, cause := some GoErr.canceled, openChildren := 0 })
    (newStreamChan Nat 5) [10, 20, 30] 2 GoErr.canceled
    (fun j hj => by interval_cases j <;> rfl)
    (by decide) (by decide) (by decide) (by decide) (by decide)
  simpa [newStreamChan, Chan.new] using h

/-- C10: `Writer.Write` with zero items performs zero iterations of its
loop: it returns `nil` and leaves the buffer untouched, whatever the
state of the bound context (in particular when it is already done). -/
theorem C10_empty_write_is_nil {α : Type} (env : Nat → CtxM) (i : Nat) (ch : Chan α) :
    WriteAll env i ch [] = .ok ch := rfl

/-- Counterexample to C4 as stated: after a first `Writer.Close` has
closed the buffer, a second `Writer.Close` reaches Go's `close` on an
already-closed channel — modelled by `closeChan` returning `none`, the
run-time panic — so the second call is a crash, not a no-op. -/
theorem C4_counterexample :
    (writerClose { done := false, cause := none, openChildren := 0 }
        (Chan.new Nat 1) none).2 =
      some { buffer := [], cap := 1, closed := true } ∧
    (writerClose { done := true, cause := none, openChildren := 0 }
        { buffer := [], cap := 1, closed := true : Chan Nat } none).2 = none := by
  constructor <;> rfl

/-- C4 (amended): the first `Writer.Close` on an open buffer closes it
exactly once; `Writer.Close` is however not idempotent — any subsequent
call panics (Go: close of closed channel) instead of being a no-op. -/
theorem C4_second_close_panics {α : Type} (ctx ctx₂ : CtxM) (ch : Chan α)
    (cause cause₂ : Option GoErr) (hcl : ch.closed = false) :
    (writerClose ctx ch cause).2 = some { ch with closed := true } ∧
    (writerClose ctx₂ { ch with closed := true } cause₂).2 = none := by
  constructor
  · simp [writerClose, closeChan, hcl]
  · simp [writerClose, closeChan]

/-- Witness for C4 (amended): concrete first close succeeds, second
panics. -/
theorem C4_witness :
    (writerClose { done := false, cause := none, openChildren := 0 }
        (Chan.new Nat 2) none).2 =
      some { buffer := ([] : List Nat), cap := 2, closed := true } ∧
    (writerClose { done := false, cause := none, openChildren := 0 }
        { buffer := ([] : List Nat), cap := 2, closed := true } none).2 = none :=
  C4_second_close_panics _ _ (Chan.new Nat 2) none none rfl

/-- Counterexample to C5 as stated: an item written (and enqueued) while
the context was open is still delivered by a receive performed after the
context has closed — `recv` acts on the channel alone and does not
consult the context at all, so buffered items survive closure and reach
the drainer. -/
theorem C5_counterexample :
    write { done := false, cause := none, openChildren := 0 } (Chan.new Nat 1) 42 =
      .ret none { buffer := [42], cap := 1, closed := false } ∧
    recv { buffer := [42], cap := 1, closed := false : Chan Nat } =
      .item 42 { buffer := [], cap := 1, closed := false } := by
  constructor <;> rfl

/-- C5 (amended): once the bound context is done, a `write` that
observes the closure aborts — returning the recorded cause and
enqueueing nothing — but items already sitting in the buffer at closure
remain deliverable: a receive on the reader's channel still yields
them. -/
theorem C5_abort_but_buffered_delivered {α : Type} (ctx : CtxM) (ch : Chan α)
    (d x : α) (rest : List α)
    (hdone : ctx.done = true)
    (hbuf : ch.buffer = x :: rest) :
    write ctx ch d = .ret (ctxErr ctx) ch ∧
    recv ch = .item x { ch with buffer := rest } := by
  constructor
  · simp [write, hdone]
  · simp [recv, hbuf]

/-- Witness for C5 (amended): with cause `canceled` recorded and `[7]`
buffered, the write aborts with the cause and the receive delivers 7. -/
theorem C5_witness :
    write { done := true, cause := some GoErr.canceled, openChildren := 0 }
        { buffer := [7], cap := 1, closed := false } 8 =
      .ret (ctxErr { done := true, cause := some GoErr.canceled, openChildren := 0 })
        { buffer := [7], cap := 1, closed := false } ∧
    recv { buffer := [7], cap := 1, closed := false : Chan Nat } =
      .item 7 { buffer := [], cap := 1, closed := false } :=
  C5_abort_but_buffered_delivered
    { done := true, cause := some GoErr.canceled, openChildren := 0 }
    { buffer := [7], cap := 1, closed := false } 8 7 [] rfl rfl

/-- C8: `Writer.Close` closes the buffer channel unconditionally (the
`close` is deferred, so it runs even when the context close attempt is
gated off by open children and leaves the context untouched and not
done); once drained, the closed buffer reports closure to the reader
while the context's done signal has not fired. -/
theorem C8_buffer_closes_despite_gated_ctx {α : Type} (ctx : CtxM) (ch : Chan α)
    (cause : Option GoErr)
    (hopen : ctx.done = false)
    (hkids : ctx.openChildren ≠ 0)
    (hcl : ch.closed = false) :
    writerClose ctx ch cause = (ctx, some { ch with closed := true }) ∧
    (ch.buffer = [] → recv { ch with closed := true } = .closedEmpty) := by
  constructor
  · simp [writerClose, ctxClose, hopen, hkids, closeChan, hcl]
  · intro hbuf
    simp [recv, hbuf]

/-- Witness for C8: a context with one open child survives its stream
writer's close untouched while the empty buffer ends up closed and
observably drained. -/
theorem C8_witness :
    writerClose { done := false, cause := none, openChildren := 1 }
        (Chan.new Nat 4) none =
      ({ done := false, cause := none, openChildren := 1 },
        some { buffer := [], cap := 4, closed := true }) ∧
    recv { buffer := ([] : List Nat), cap := 4, closed := true } =
      RecvResult.closedEmpty :=
  ⟨(C8_buffer_closes_despite_gated_ctx
      { done := false, cause := none, openChildren := 1 }
      (Chan.new Nat 4) none rfl (by decide) rfl).1,
    (C8_buffer_closes_despite_gated_ctx
      { done := false, cause := none, openChildren := 1 }
      (Chan.new Nat 4) none rfl (by decide) rfl).2 rfl⟩

/-! ## Lemmas about the context tree -/

/-- Cancelling a node does not change the pool size. -/
theorem CtxTree.length_setCancelled (t : CtxTree) (i : Nat) :
    (t.setCancelled i).nodes.length = t.nodes.length := by
  simp [CtxTree.setCancelled]

/-- Reading the pool after cancelling node `i`. -/
theorem CtxTree.get_setCancelled (t : CtxTree) (i k : Nat) :
    (t.setCancelled i).get k =
      if k = i ∧ i < t.nodes.length then { t.get i with cancelled := true }
      else t.get k := by
  unfold CtxTree.setCancelled CtxTree.get
  simp only [List.getD_eq_getElem?_getD, List.getElem?_set]
  by_cases hk : k = i
  · subst hk
    by_cases hlen : k < t.nodes.length
    · simp [hlen]
    · have hnone : t.nodes[k]? = none := List.getElem?_eq_none (by omega)
      simp [hlen, hnone]
  · have hik : ¬i = k := fun h => hk h.symm
    simp [hk, hik]

/-- The cancelled node reads as cancelled. -/
theorem CtxTree.setCancelled_cancelled_self (t : CtxTree) (i : Nat)
    (h : i < t.nodes.length) : ((t.setCancelled i).get i).cancelled = true := by
  simp [CtxTree.get_setCancelled, h]

/-- Cancelling one node keeps every other cancelled flag set. -/
theorem CtxTree.setCancelled_cancelled_mono (t : CtxTree) (i k : Nat)
    (h : (t.get k).cancelled = true) :
    ((t.setCancelled i).get k).cancelled = true := by
  rw [CtxTree.get_setCancelled]
  split <;> simp [h]

/-- Cancelling does not alter any ancestor chain. -/
theorem CtxTree.setCancelled_ancestors (t : CtxTree) (i k : Nat) :
    ((t.setCancelled i).get k).ancestors = (t.get k).ancestors := by
  rw [CtxTree.get_setCancelled]
  split
  · rename_i h; rw [h.1]
  · rfl

/-- Cancelling does not alter any tree-parent pointer. -/
theorem CtxTree.setCancelled_parent (t : CtxTree) (i k : Nat) :
    ((t.setCancelled i).get k).parent = (t.get k).parent := by
  rw [CtxTree.get_setCancelled]
  split
  · rename_i h; rw [h.1]
  · rfl

/-- Cancelling does not alter any child set. -/
theorem CtxTree.setCancelled_children (t : CtxTree) (i k : Nat) :
    ((t.setCancelled i).get k).children = (t.get k).children := by
  rw [CtxTree.get_setCancelled]
  split
  · rename_i h; rw [h.1]
  · rfl

/-- A fired done signal stays fired across a cancellation. -/
theorem CtxTree.stdDone_setCancelled_mono (t : CtxTree) (i k : Nat)
    (h : t.stdDone k = true) : (t.setCancelled i).stdDone k = true := by
  have h' : (t.get k).cancelled = true ∨
      ∃ a ∈ (t.get k).ancestors, (t.get a).cancelled = true := by
    simpa [CtxTree.stdDone, List.any_eq_true] using h
  rcases h' with h1 | ⟨a, ha, hc⟩
  · have := CtxTree.setCancelled_cancelled_mono t i k h1
    simp [CtxTree.stdDone, this]
  · have := CtxTree.setCancelled_cancelled_mono t i a hc
    simp only [CtxTree.stdDone, CtxTree.setCancelled_ancestors, Bool.or_eq_true,
      List.any_eq_true]
    exact Or.inr ⟨a, ha, this⟩

/-- The close recursion never clears a cancelled flag. -/
theorem CtxTree.closeAux_cancelled_mono :
    ∀ (fuel : Nat) (t : CtxTree) (j k : Nat),
      (t.get k).cancelled = true →
      ((CtxTree.closeAux fuel t j).get k).cancelled = true := by
  intro fuel
  induction fuel with
  | zero => intro t j k h; exact h
  | succ fuel ih =>
    intro t j k h
    unfold CtxTree.closeAux
    by_cases hcd : t.childrenDone j
    · simp only [hcd, if_true]
      cases hp : (t.get j).parent with
      | none => exact CtxTree.setCancelled_cancelled_mono t j k h
      | some p => exact ih _ p k (CtxTree.setCancelled_cancelled_mono t j k h)
    · simpa [hcd] using h

/-- One unfolding of the close recursion at positive fuel. -/
theorem CtxTree.closeAux_succ (fuel : Nat) (t : CtxTree) (i : Nat) :
    CtxTree.closeAux (fuel + 1) t i =
      if t.childrenDone i then
        match (t.get i).parent with
        | none => t.setCancelled i
        | some p => CtxTree.closeAux fuel (t.setCancelled i) p
      else t := rfl

/-- Cancellation preserves well-formedness. -/
theorem CtxTree.WF_setCancelled {t : CtxTree} (h : t.WF) (i : Nat) :
    (t.setCancelled i).WF := by
  intro j p hp
  rw [CtxTree.setCancelled_parent] at hp
  exact h j p hp

/-- On a well-formed pool any fuel at least `i + 1` computes `close`. -/
theorem CtxTree.closeAux_fuel_congr :
    ∀ (i : Nat) (t : CtxTree), t.WF → ∀ fuel, i < fuel →
      CtxTree.closeAux fuel t i = t.close i := by
  intro i
  induction i using Nat.strong_induction_on with
  | _ i ih =>
    intro t hwf fuel hfuel
    obtain ⟨f, rfl⟩ : ∃ f, fuel = f + 1 := ⟨fuel - 1, by omega⟩
    unfold CtxTree.close CtxTree.closeAux
    by_cases hcd : t.childrenDone i
    · simp only [hcd, if_true]
      cases hp : (t.get i).parent with
      | none => rfl
      | some p =>
        have hpi : p < i := hwf i p hp
        have hwf' : (t.setCancelled i).WF := CtxTree.WF_setCancelled hwf i
        dsimp only
        rw [ih p hpi _ hwf' f (by omega), ih p hpi _ hwf' i (by omega)]
    · simp [hcd]

/-- Reading the fresh child's node after `NewChild`. -/
theorem CtxTree.get_newChild_child (t : CtxTree) (p : Nat) :
    (t.newChild p).1.get t.nodes.length =
      { ancestors := p :: (t.get p).ancestors, parent := some p,
        cancelled := false, children := [], config := (t.get p).config } := by
  unfold CtxTree.newChild CtxTree.get
  dsimp only
  rw [List.getD_eq_getElem?_getD,
    List.getElem?_append_right (by simp)]
  simp

/-- Reading the parent's node after `NewChild`: the fresh child's index
was appended to its child set. -/
theorem CtxTree.get_newChild_parent (t : CtxTree) (p : Nat)
    (hp : p < t.nodes.length) :
    (t.newChild p).1.get p =
      { t.get p with children := (t.get p).children ++ [t.nodes.length] } := by
  unfold CtxTree.newChild CtxTree.get
  dsimp only
  rw [List.getD_eq_getElem?_getD, List.getElem?_append, if_pos (by simpa using hp)]
  simp [List.getElem?_set, hp, List.getD_eq_getElem?_getD]

/-- Reading past the end of the pool yields the inert default node. -/
theorem CtxTree.get_out_of_range (t : CtxTree) (k : Nat)
    (h : t.nodes.length ≤ k) : t.get k = stdNode := by
  unfold CtxTree.get
  rw [List.getD_eq_getElem?_getD, List.getElem?_eq_none (by omega)]
  rfl

/-- `NewChild` grows the pool by one node. -/
theorem CtxTree.length_newChild (t : CtxTree) (p : Nat) :
    (t.newChild p).1.nodes.length = t.nodes.length + 1 := by
  simp [CtxTree.newChild]

/-- `NewChild` leaves every other node unchanged. -/
theorem CtxTree.get_newChild_other (t : CtxTree) (p k : Nat)
    (hk : k ≠ t.nodes.length) (hkp : k ≠ p) :
    (t.newChild p).1.get k = t.get k := by
  by_cases hlt : k < t.nodes.length
  · unfold CtxTree.newChild CtxTree.get
    dsimp only
    rw [List.getD_eq_getElem?_getD, List.getElem?_append, if_pos (by simpa using hlt)]
    have hpk : ¬p = k := fun h => hkp h.symm
    simp [List.getElem?_set, hpk, List.getD_eq_getElem?_getD]
  · rw [CtxTree.get_out_of_range _ k (by rw [CtxTree.length_newChild]; omega),
      CtxTree.get_out_of_range t k (by omega)]

/-- `NewChild` of an existing node preserves well-formedness: the fresh
child's tree parent has a smaller index, other parents are untouched. -/
theorem CtxTree.WF_newChild {t : CtxTree} (h : t.WF) (p : Nat)
    (hp : p < t.nodes.length) : (t.newChild p).1.WF := by
  intro j q hq
  by_cases hj : j = t.nodes.length
  · subst hj
    rw [CtxTree.get_newChild_child] at hq
    exact Option.some.inj hq ▸ hp
  · by_cases hjp : j = p
    · subst hjp
      rw [CtxTree.get_newChild_parent t j hp] at hq
      exact h j q hq
    · rw [CtxTree.get_newChild_other t p j hj hjp] at hq
      exact h j q hq

/-- Overwriting every configured timeout does not change any node's
non-config fields. -/
theorem CtxTree.get_setTimeouts_fields (t : CtxTree) (v k : Nat) :
    ((t.setTimeouts v).get k).cancelled = (t.get k).cancelled ∧
    ((t.setTimeouts v).get k).ancestors = (t.get k).ancestors ∧
    ((t.setTimeouts v).get k).children = (t.get k).children ∧
    ((t.setTimeouts v).get k).parent = (t.get k).parent := by
  unfold CtxTree.setTimeouts CtxTree.get
  rw [List.getD_eq_getElem?_getD, List.getD_eq_getElem?_getD, List.getElem?_map]
  cases t.nodes[k]? <;> simp [stdNode]

/-- In-range read after overwriting the timeouts. -/
theorem CtxTree.get_setTimeouts_lt (t : CtxTree) (v i : Nat)
    (h : i < t.nodes.length) :
    (t.setTimeouts v).get i =
      { t.get i with config := { (t.get i).config with timeout := v } } := by
  unfold CtxTree.setTimeouts CtxTree.get
  rw [List.getD_eq_getElem?_getD, List.getD_eq_getElem?_getD, List.getElem?_map,
    List.getElem?_eq_getElem h]
  rfl

/-- The done signal never depends on any configured timeout. -/
theorem CtxTree.stdDone_setTimeouts (t : CtxTree) (v k : Nat) :
    (t.setTimeouts v).stdDone k = t.stdDone k := by
  unfold CtxTree.stdDone
  rw [(CtxTree.get_setTimeouts_fields t v k).1,
    (CtxTree.get_setTimeouts_fields t v k).2.1]
  have hfun : (fun j => ((t.setTimeouts v).get j).cancelled) =
      fun j => (t.get j).cancelled :=
    funext fun j => (CtxTree.get_setTimeouts_fields t v j).1
  rw [hfun]

/-- The gating check never depends on any configured timeout. -/
theorem CtxTree.childrenDone_setTimeouts (t : CtxTree) (v k : Nat) :
    (t.setTimeouts v).childrenDone k = t.childrenDone k := by
  unfold CtxTree.childrenDone
  rw [(CtxTree.get_setTimeouts_fields t v k).2.2.1]
  congr 1
  funext c
  exact CtxTree.stdDone_setTimeouts t v c

/-- Cancelling a node commutes with overwriting the timeouts. -/
theorem CtxTree.setCancelled_setTimeouts_comm (t : CtxTree) (v i : Nat) :
    (t.setTimeouts v).setCancelled i = (t.setCancelled i).setTimeouts v := by
  unfold CtxTree.setCancelled
  by_cases h : i < t.nodes.length
  · rw [CtxTree.get_setTimeouts_lt t v i h]
    unfold CtxTree.setTimeouts
    dsimp only
    rw [List.map_set]
  · unfold CtxTree.setTimeouts
    dsimp only
    rw [List.map_set,
      List.set_eq_of_length_le (by simp; omega),
      List.set_eq_of_length_le (by simp; omega)]

/-- The whole close recursion commutes with overwriting the timeouts:
no amount of closing consults any timeout. -/
theorem CtxTree.closeAux_setTimeouts_comm :
    ∀ (fuel : Nat) (t : CtxTree) (i v : Nat),
      CtxTree.closeAux fuel (t.setTimeouts v) i =
        (CtxTree.closeAux fuel t i).setTimeouts v := by
  intro fuel
  induction fuel with
  | zero => intro t i v; rfl
  | succ fuel ih =>
    intro t i v
    unfold CtxTree.closeAux
    rw [CtxTree.childrenDone_setTimeouts]
    by_cases hcd : t.childrenDone i = true
    · rw [if_pos hcd, if_pos hcd,
        (CtxTree.get_setTimeouts_fields t v i).2.2.2]
      cases hp : (t.get i).parent with
      | none =>
        dsimp only
        rw [CtxTree.setCancelled_setTimeouts_comm]
      | some p =>
        dsimp only
        rw [CtxTree.setCancelled_setTimeouts_comm, ih]
    · rw [if_neg hcd, if_neg hcd]

/-! ## Claims about the context tree (C2, C6, C7, C9) -/

/-- C2: a close attempt on a context node is gated on its current child
set — if some child's done signal has not fired the attempt is a no-op
(the whole pool is unchanged, so the node stays open); if every child in
the set is done (vacuously so for an empty set) the very next close
attempt marks the node done. -/
theorem C2_close_gated_on_children (t : CtxTree) (i : Nat) :
    ((∃ c ∈ (t.get i).children, t.stdDone c = false) → t.close i = t) ∧
    (i < t.nodes.length → (∀ c ∈ (t.get i).children, t.stdDone c = true) →
      (t.close i).stdDone i = true) := by
  constructor
  · rintro ⟨c, hc, hdone⟩
    have hcd : ¬t.childrenDone i = true := by
      simp only [CtxTree.childrenDone, List.all_eq_true, not_forall]
      exact ⟨c, hc, by simp [hdone]⟩
    unfold CtxTree.close CtxTree.closeAux
    rw [if_neg hcd]
  · intro hlen hall
    have hcd : t.childrenDone i = true := by
      simp only [CtxTree.childrenDone, List.all_eq_true]
      exact hall
    unfold CtxTree.close CtxTree.closeAux
    rw [if_pos hcd]
    cases hp : (t.get i).parent with
    | none =>
      dsimp only
      have hc := CtxTree.setCancelled_cancelled_self t i hlen
      simp [CtxTree.stdDone, hc]
    | some p =>
      dsimp only
      have hc := CtxTree.closeAux_cancelled_mono i (t.setCancelled i) p i
        (CtxTree.setCancelled_cancelled_self t i hlen)
      simp [CtxTree.stdDone, hc]

/-- Witness for C2: in the pool `std(0) → root(1) → child(2)`, closing
the root while its child is open changes nothing, and closing the
childless leaf marks the leaf done. -/
theorem C2_witness :
    ((((⟨[stdNode]⟩ : CtxTree).fromStdContext 0).1.newChild 1).1.close 1 =
      (((⟨[stdNode]⟩ : CtxTree).fromStdContext 0).1.newChild 1).1) ∧
    (((((⟨[stdNode]⟩ : CtxTree).fromStdContext 0).1.newChild 1).1.close 2).stdDone 2
      = true) :=
  ⟨(C2_close_gated_on_children
      (((⟨[stdNode]⟩ : CtxTree).fromStdContext 0).1.newChild 1).1 1).1
      ⟨2, by decide, by decide⟩,
    (C2_close_gated_on_children
      (((⟨[stdNode]⟩ : CtxTree).fromStdContext 0).1.newChild 1).1 2).2
      (by decide) (by decide)⟩

/-- C6: `NewChild(parent)` creates a child inheriting the parent's
config and appends it to the parent's child set; the child's own close
performs exactly two effects in order — cancel the child's std context
(marking it done), then attempt to close the parent (the parent then
closing only if all of its children are done, which is what `close p`
checks). -/
theorem C6_newChild_inherits_appends_propagates (t : CtxTree) (p : Nat)
    (hwf : t.WF) (hp : p < t.nodes.length) :
    ((t.newChild p).1.get (t.newChild p).2).config = (t.get p).config ∧
    ((t.newChild p).1.get p).children = (t.get p).children ++ [(t.newChild p).2] ∧
    (t.newChild p).1.close (t.newChild p).2 =
      ((t.newChild p).1.setCancelled (t.newChild p).2).close p := by
  refine ⟨?_, ?_, ?_⟩
  · rw [show (t.newChild p).2 = t.nodes.length from rfl, CtxTree.get_newChild_child]
  · rw [CtxTree.get_newChild_parent t p hp]
    rfl
  · have hchild := CtxTree.get_newChild_child t p
    have hwf' : (t.newChild p).1.WF := CtxTree.WF_newChild hwf p hp
    have hcd : (t.newChild p).1.childrenDone (t.newChild p).2 = true := by
      unfold CtxTree.childrenDone
      rw [show (t.newChild p).2 = t.nodes.length from rfl, hchild]
      rfl
    have hparent : ((t.newChild p).1.get (t.newChild p).2).parent = some p := by
      rw [show (t.newChild p).2 = t.nodes.length from rfl, hchild]
    have step : (t.newChild p).1.close (t.newChild p).2 =
        CtxTree.closeAux (t.newChild p).2
          ((t.newChild p).1.setCancelled (t.newChild p).2) p := by
      show CtxTree.closeAux ((t.newChild p).2 + 1) (t.newChild p).1 (t.newChild p).2 = _
      rw [CtxTree.closeAux_succ, if_pos hcd, hparent]
    rw [step]
    exact CtxTree.closeAux_fuel_congr p _ (CtxTree.WF_setCancelled hwf' _)
      (t.newChild p).2 hp

/-- Witness for C6: spawning a child of the root in the pool
`std(0) → root(1)` inherits the default config, appends index 2 to the
root's child set, and the child's close equals cancel-then-close-parent. -/
theorem C6_witness :
    (((((⟨[stdNode]⟩ : CtxTree).fromStdContext 0).1.newChild 1).1.get
        ((((⟨[stdNode]⟩ : CtxTree).fromStdContext 0).1.newChild 1).2)).config =
      ((((⟨[stdNode]⟩ : CtxTree).fromStdContext 0).1).get 1).config) ∧
    ((((((⟨[stdNode]⟩ : CtxTree).fromStdContext 0).1.newChild 1).1.get 1).children) =
      ((((⟨[stdNode]⟩ : CtxTree).fromStdContext 0).1).get 1).children ++
        [(((⟨[stdNode]⟩ : CtxTree).fromStdContext 0).1.newChild 1).2]) ∧
    ((((⟨[stdNode]⟩ : CtxTree).fromStdContext 0).1.newChild 1).1.close
        ((((⟨[stdNode]⟩ : CtxTree).fromStdContext 0).1.newChild 1).2) =
      ((((⟨[stdNode]⟩ : CtxTree).fromStdContext 0).1.newChild 1).1.setCancelled
        ((((⟨[stdNode]⟩ : CtxTree).fromStdContext 0).1.newChild 1).2)).close 1) :=
  C6_newChild_inherits_appends_propagates
    (((⟨[stdNode]⟩ : CtxTree).fromStdContext 0).1) 1
    (by
      intro i q hq
      match i with
      | 0 => simp [CtxTree.get, CtxTree.fromStdContext, stdNode] at hq
      | 1 => simp [CtxTree.get, CtxTree.fromStdContext, stdNode] at hq
      | n + 2 =>
        rw [CtxTree.get_out_of_range _ _ (by simp [CtxTree.fromStdContext])] at hq
        simp [stdNode] at hq)
    (by decide)

/-- C7 (the code never implements it): closing behaviour in the
`context` package is entirely independent of the configured timeout —
overwriting every node's timeout changes neither any done signal nor any
close attempt, and a freshly built `FromStdContext` root is open with
nothing in the semantics ever closing it except an explicit close: no
background timer exists, contradicting the claim (and `Config.Timeout`'s
own doc comment) that a node auto-closes after its timeout. -/
theorem C7_timeout_never_consulted (t : CtxTree) (v i fuel : Nat) :
    (t.setTimeouts v).stdDone i = t.stdDone i ∧
    CtxTree.closeAux fuel (t.setTimeouts v) i =
      (CtxTree.closeAux fuel t i).setTimeouts v ∧
    ((⟨[stdNode]⟩ : CtxTree).fromStdContext 0).1.stdDone
      ((⟨[stdNode]⟩ : CtxTree).fromStdContext 0).2 = false :=
  ⟨CtxTree.stdDone_setTimeouts t v i,
    CtxTree.closeAux_setTimeouts_comm fuel t i v, by decide⟩

/-- C9: cancelling the std context underlying any ancestor (in
particular the std context a root was built from) fires the done signal
of every node that has it in its std-ancestor chain, with no condition
on those nodes' child sets — the children-gating protocol is bypassed. -/
theorem C9_std_cancellation_reaches_descendants (t : CtxTree) (a d : Nat)
    (ha : a < t.nodes.length)
    (hmem : a ∈ (t.get d).ancestors) :
    (t.setCancelled a).stdDone d = true := by
  have hc := CtxTree.setCancelled_cancelled_self t a ha
  simp only [CtxTree.stdDone, CtxTree.setCancelled_ancestors, Bool.or_eq_true,
    List.any_eq_true]
  exact Or.inr ⟨a, hmem, hc⟩

/-- Witness for C9: in the chain `std(0) → root(1) → child(2) →
grandchild(3)` built by `FromStdContext` and two `NewChild` calls,
cancelling the external std context 0 makes the grandchild done even
though nodes 1 and 2 still have open children. -/
theorem C9_witness :
    (((((⟨[stdNode]⟩ : CtxTree).fromStdContext 0).1.newChild 1).1.newChild
        2).1.setCancelled 0).stdDone 3 = true :=
  C9_std_cancellation_reaches_descendants
    ((((⟨[stdNode]⟩ : CtxTree).fromStdContext 0).1.newChild 1).1.newChild 2).1
    0 3 (by decide) (by decide)

end Rivers
